import Mathlib

/-!
# Verification of the oreacto async core

Shallow embedding of the two core hooks of the `oreacto` repository:

* `useAsync` (src/hooks/useAsync.ts): an operation controller with
  supersession via `AbortController`, stale-while-revalidate caching,
  and retry-with-delay;
* `useAIStream` (the streaming hook): a chunked-stream consumer with an
  optional per-chunk transform, abort handling and error wrapping.

JavaScript promises are modelled by explicit continuation passing: an
`execute` call is split at its single `await` into `executeStart`
(everything before `await asyncFn(...args)`) and `executeResume`
(everything after, parameterised by the settled outcome of the awaited
promise).  The stream's `fetch` and read loop are modelled by a
connection outcome and a list of read outcomes.  React `useState`
setters become record updates; `useRef` cells become record fields;
configured callbacks (`onSuccess`, `onError`, `onChunk`, `onComplete`)
and the invocation of the wrapped operation are modelled as an emitted
event list, in program order.
-/

/-- A JavaScript `Error` value: its `name` and `message` properties.
`AbortError` is the error with `name = "AbortError"`. -/
structure JSError where
  name : String
  message : String
  deriving DecidableEq, Repr

/-- A JavaScript thrown value: either an `Error` instance or a non-`Error`
value, represented by its `String(value)` rendering. -/
inductive JSVal where
  | errV : JSError → JSVal
  | strV : String → JSVal
  deriving DecidableEq, Repr

/-- Error wrapping: `error instanceof Error ? error : new Error(String(error))`
(useAsync.ts line 181, and the same pattern in the stream hook's catch). -/
def jsToError : JSVal → JSError
  | .errV e => e
  | .strV s => ⟨"Error", s⟩

/-- The check `err.name === "AbortError"` — on a non-`Error` thrown value
the `name` property is `undefined`, which is not equal to the string. -/
def isAbortError : JSVal → Bool
  | .errV e => e.name == "AbortError"
  | .strV _ => false

/-! ## useAsync: data model -/

/-- The record `AsyncState<T>` of useAsync.ts (`data`, `loading`, `error`,
`success`); `null` becomes `none`. -/
structure AsyncState (T : Type) where
  data : Option T
  loading : Bool
  error : Option JSError
  success : Bool
  deriving DecidableEq, Repr

/-- The initial at-rest state (useAsync.ts lines 108–113). -/
def initAsyncState (T : Type) : AsyncState T :=
  ⟨none, false, none, false⟩

/-- The non-function configuration of `useAsync` with its defaults
(useAsync.ts lines 99–106); the callbacks are modelled as events. -/
structure UseAsyncCfg where
  retryCount : Nat := 0
  retryDelay : Nat := 1000
  staleTime : Nat := 0
  cacheKey : Option String := none
  deriving DecidableEq, Repr

/-- A module-level cache entry `{ data, timestamp }` (useAsync.ts line 27). -/
structure CacheEntry (T : Type) where
  data : T
  timestamp : Nat
  deriving DecidableEq, Repr

/-- Lookup `cache.get key` on the association-list model of the `Map`. -/
def cacheGet {T : Type} (cache : List (String × CacheEntry T)) (k : String) :
    Option (CacheEntry T) :=
  (cache.find? (fun p => p.1 == k)).map (·.2)

/-- Update `cache.set key entry`: the most recent binding shadows older
ones, matching the overwrite semantics of `Map.set` under `cacheGet`. -/
def cacheSet {T : Type} (cache : List (String × CacheEntry T)) (k : String)
    (e : CacheEntry T) : List (String × CacheEntry T) :=
  (k, e) :: cache

/-- Process-wide mutable state shared by controller instances: the
module-level cache, and the pool of `AbortController`s ever created.
A token (an index into `tokens`) stands for one `AbortController`; the
Boolean is its `signal.aborted` flag. -/
structure Global (T : Type) where
  cache : List (String × CacheEntry T)
  tokens : List Bool
  deriving DecidableEq, Repr

/-- Per-controller instance state: the React state, `retryCountRef`,
`lastArgsRef`, and `abortControllerRef` (`none` = `null`). -/
structure Ctrl (A T : Type) where
  state : AsyncState T
  retryCnt : Nat
  lastArgs : List A
  current : Option Nat
  deriving DecidableEq, Repr

/-- A freshly constructed controller (all refs at their initial values). -/
def initCtrl (A T : Type) : Ctrl A T :=
  ⟨initAsyncState T, 0, [], none⟩

/-- Observable events of one controller, in program order: invocation of
the wrapped operation with its arguments, the `onSuccess` and `onError`
callbacks, and a `setTimeout`-scheduled retry with its delay and the
arguments it will re-use. -/
inductive AEvent (A T : Type) where
  | invokeEv : List A → AEvent A T
  | successEv : T → AEvent A T
  | errorEv : JSError → AEvent A T
  | retrySchedEv : Nat → List A → AEvent A T
  deriving DecidableEq, Repr

/-- The check `abortControllerRef.current?.signal.aborted` of the
enclosing hook: reads the flag of the controller the ref points to NOW
(not the one that was current when this invocation started). -/
def currentAborted {A T : Type} (g : Global T) (c : Ctrl A T) : Bool :=
  match c.current with
  | some t => g.tokens.getD t false
  | none => false

/-- Abort a controller, `abortControllerRef.current.abort()`: sets its
`signal.aborted` flag. -/
def abortToken {T : Type} (g : Global T) (t : Nat) : Global T :=
  { g with tokens := g.tokens.set t true }

/-- Outcome of the synchronous prefix of `execute`: either a fresh cache
hit returned the cached value without invoking the operation, or the
invocation was started and is now suspended at `await asyncFn(...args)`. -/
inductive StartRes (T : Type) where
  | hit : T → StartRes T
  | started : StartRes T
  deriving DecidableEq, Repr

/-- useAsync.ts lines 119–151: the part of `execute(...args)` before the
`await`.  In source order: abort the previous controller if present
(lines 121–124); consult the cache when a key and a positive `staleTime`
are configured and return a fresh hit immediately (lines 126–139); mint
a new `AbortController`, record `lastArgs`, set `loading` (lines
141–150), and invoke the wrapped operation (line 153, emitted as an
`invokeEv`). -/
def executeStart {A T : Type} (cfg : UseAsyncCfg) (g : Global T) (c : Ctrl A T)
    (args : List A) (now : Nat) :
    Global T × Ctrl A T × List (AEvent A T) × StartRes T :=
  let g1 := match c.current with
    | some t => abortToken g t
    | none => g
  let hitVal : Option T :=
    match cfg.cacheKey with
    | some k =>
      if cfg.staleTime > 0 then
        match cacheGet g1.cache k with
        | some e => if now - e.timestamp < cfg.staleTime then some e.data else none
        | none => none
      else none
    | none => none
  match hitVal with
  | some v =>
    (g1, { c with state := ⟨some v, false, none, true⟩ },
      [AEvent.successEv v], StartRes.hit v)
  | none =>
    let tok := g1.tokens.length
    let g2 := { g1 with tokens := g1.tokens ++ [false] }
    let c2 : Ctrl A T :=
      { c with
        current := some tok
        lastArgs := args
        state := { c.state with loading := true, error := none, success := false } }
    (g2, c2, [AEvent.invokeEv args], StartRes.started)

/-- What `execute` hands back to its direct caller once the awaited
promise settles: `undefined` after an observed abort, a returned value,
or a thrown error (the Boolean records whether a retry was scheduled
alongside the throw). -/
inductive ResumeRes (T : Type) where
  | retUndefined : ResumeRes T
  | returned : T → ResumeRes T
  | threw : JSError → Bool → ResumeRes T
  deriving DecidableEq, Repr

/-- useAsync.ts lines 152–201: the continuation of `execute` after
`await asyncFn(...args)` settles with `outcome`.  Both branches first
re-check `abortControllerRef.current?.signal.aborted` and bail out with
`undefined` when it is set (lines 155–158, 176–179).  On fulfilment:
cache write when a key is configured (lines 160–163), success state,
`onSuccess`, retry-counter reset, return (lines 165–174).  On rejection:
wrap a non-`Error` value (line 181), error state preserving `data`
(lines 183–188), `onError` (line 190), schedule a retry when
`retryCountRef.current < retryCount` (lines 192–198), then re-throw
(line 200). -/
def executeResume {A T : Type} (cfg : UseAsyncCfg) (g : Global T) (c : Ctrl A T)
    (outcome : Except JSVal T) (now : Nat) :
    Global T × Ctrl A T × List (AEvent A T) × ResumeRes T :=
  match outcome with
  | .ok r =>
    if currentAborted g c then (g, c, [], ResumeRes.retUndefined)
    else
      let g' := match cfg.cacheKey with
        | some k => { g with cache := cacheSet g.cache k ⟨r, now⟩ }
        | none => g
      (g', { c with state := ⟨some r, false, none, true⟩, retryCnt := 0 },
        [AEvent.successEv r], ResumeRes.returned r)
  | .error v =>
    if currentAborted g c then (g, c, [], ResumeRes.retUndefined)
    else
      let e := jsToError v
      let c1 := { c with state :=
        { c.state with loading := false, error := some e, success := false } }
      if c.retryCnt < cfg.retryCount then
        (g, { c1 with retryCnt := c.retryCnt + 1 },
          [AEvent.errorEv e, AEvent.retrySchedEv cfg.retryDelay c.lastArgs],
          ResumeRes.threw e true)
      else
        (g, c1, [AEvent.errorEv e], ResumeRes.threw e false)

/-- useAsync.ts lines 206–209: `retry()` zeroes `retryCountRef` and calls
`execute(...lastArgsRef.current)`.  Only the synchronous prefix is run
here; the awaited outcome is resumed separately. -/
def retryStart {A T : Type} (cfg : UseAsyncCfg) (g : Global T) (c : Ctrl A T)
    (now : Nat) : Global T × Ctrl A T × List (AEvent A T) × StartRes T :=
  executeStart cfg g { c with retryCnt := 0 } c.lastArgs now

/-- Serial driver for a chain of attempts under the single-threaded
model: run `execute(args)`, and — when the attempt fails and the catch
block scheduled a retry — run the scheduled `execute(...lastArgsRef.current)`
after `retryDelay`, consuming one outcome from `outcomes` per actual
invocation of the wrapped operation.  Nothing else is interleaved. -/
def runFrom {A T : Type} (cfg : UseAsyncCfg) (g : Global T) (c : Ctrl A T)
    (args : List A) (now : Nat) :
    List (Except JSVal T) → Global T × Ctrl A T × List (AEvent A T)
  | [] => (g, c, [])
  | o :: rest =>
    match executeStart cfg g c args now with
    | (g1, c1, evs1, StartRes.hit _) => (g1, c1, evs1)
    | (g1, c1, evs1, StartRes.started) =>
      match executeResume cfg g1 c1 o now with
      | (g2, c2, evs2, ResumeRes.threw _ true) =>
        let r := runFrom cfg g2 c2 c2.lastArgs (now + cfg.retryDelay) rest
        (r.1, r.2.1, evs1 ++ evs2 ++ r.2.2)
      | (g2, c2, evs2, _) => (g2, c2, evs1 ++ evs2)

/-- Number of scheduled retries among a controller's events. -/
def countRetrySched {A T : Type} : List (AEvent A T) → Nat
  | [] => 0
  | AEvent.retrySchedEv _ _ :: rest => countRetrySched rest + 1
  | _ :: rest => countRetrySched rest

example :
    (executeStart (T := Nat) { staleTime := 0 } ⟨[], []⟩ (initCtrl Nat Nat) [7] 0).2.2.2
      = StartRes.started := by decide

example :
    (runFrom (A := Nat) { retryCount := 1 } ⟨[], []⟩ (initCtrl Nat Nat) [7] 0
      [Except.error (JSVal.strV "boom"), Except.ok 3]).2.1.state.success = true := by
  decide

/-! ## useAIStream: data model -/

/-- The stream hook's state: `data`, `isStreaming`, `isComplete`, `error`
(React state), `accumulatedTextRef`, and whether `abortControllerRef`
currently holds a controller (`ctrlPresent`; `false` = `null`). -/
structure StreamSt where
  data : String
  isStreaming : Bool
  isComplete : Bool
  error : Option JSError
  accumulated : String
  ctrlPresent : Bool
  deriving DecidableEq, Repr

/-- A freshly constructed stream hook. -/
def initStreamSt : StreamSt :=
  ⟨"", false, false, none, "", false⟩

/-- Result of one `parseChunk` application: the function may throw
(`Except.error`), return `null` (`Except.ok none`, the SKIP sentinel),
or return a replacement string. -/
abbrev ParseResult := Except JSVal (Option String)

/-- The behavioural part of the merged `AIStreamConfig`: the optional
chunk transform.  Transport fields (`url`, `method`, `headers`, `body`)
only influence which bytes arrive and are abstracted into the
connection/read outcomes below; callbacks are modelled as events. -/
structure AIStreamCfg where
  parseChunk : Option (String → ParseResult)

/-- Observable events of the stream hook: the `onChunk`, `onComplete`
and `onError` callbacks. -/
inductive SEvent where
  | chunkEv : String → SEvent
  | completeEv : String → SEvent
  | errorEv : JSError → SEvent
  deriving DecidableEq, Repr

/-- Outcome of `fetch(...)` as the hook observes it: either the promise
rejected, or a response with an `ok` flag, a `status`, and a readable or
absent body arrived. -/
inductive ConnResult where
  | connThrew : JSVal → ConnResult
  | connOk : Bool → Nat → Bool → ConnResult
  deriving DecidableEq, Repr

/-- Outcome of one `await reader.read()`: a decoded chunk, end-of-data,
or a rejection (an abort surfaces here as an `AbortError`). -/
inductive ReadResult where
  | chunkR : String → ReadResult
  | doneR : ReadResult
  | threwR : JSVal → ReadResult
  deriving DecidableEq, Repr

/-- How the `try` block of `startStream` was left: the loop completed via
`done`, something was thrown out of the block, or the loop is still
suspended awaiting the next read (used for mid-stream snapshots). -/
inductive LoopStatus where
  | completed : LoopStatus
  | stoppedThrew : JSVal → LoopStatus
  | reading : LoopStatus
  deriving DecidableEq, Repr

/-- The stream hook's `abort()` (lines 103–109): when a controller is
present, abort it, null the ref, and set `isStreaming := false`;
otherwise do nothing.  The pending read's `AbortError` rejection is a
separate read outcome. -/
def abortFn (s : StreamSt) : StreamSt :=
  if s.ctrlPresent then { s with ctrlPresent := false, isStreaming := false } else s

/-- The state-reset prefix of `startStream` (lines 129–137): clear `data`,
`error`, `isComplete` and the accumulator, set `isStreaming`, and mint a
new `AbortController`. -/
def streamStartPhase (_s : StreamSt) : StreamSt :=
  ⟨"", true, false, none, "", true⟩

/-- The `while (true)` read loop (lines 159–189), one iteration per read
outcome.  `done`: set `isComplete`, clear `isStreaming`, fire
`onComplete` with the accumulated text, leave the loop.  A rejected read
propagates out of the loop.  A chunk: apply `parseChunk` when
configured — a thrown transform propagates out of the loop, `null`
means `continue` — then append the (possibly transformed) chunk to the
accumulator, publish it as `data`, and fire `onChunk`.  An exhausted
outcome list leaves the loop suspended at the next `await`. -/
def readLoop (cfg : AIStreamCfg) (s : StreamSt) :
    List ReadResult → StreamSt × List SEvent × LoopStatus
  | [] => (s, [], LoopStatus.reading)
  | ReadResult.doneR :: _ =>
    ({ s with isComplete := true, isStreaming := false },
      [SEvent.completeEv s.accumulated], LoopStatus.completed)
  | ReadResult.threwR v :: _ => (s, [], LoopStatus.stoppedThrew v)
  | ReadResult.chunkR raw :: rest =>
    let step : Option String → StreamSt × List SEvent × LoopStatus := fun p =>
      match p with
      | none => readLoop cfg s rest
      | some processed =>
        let s' := { s with
          accumulated := s.accumulated ++ processed
          data := s.accumulated ++ processed }
        let r := readLoop cfg s' rest
        (r.1, SEvent.chunkEv processed :: r.2.1, r.2.2)
    match cfg.parseChunk with
    | some f =>
      match f raw with
      | .error v => (s, [], LoopStatus.stoppedThrew v)
      | .ok none => readLoop cfg s rest
      | .ok (some p) => step (some p)
    | none => step (some raw)

/-- The body of `startStream`'s `try` block (lines 139–189): open the
connection, throw on a non-`ok` response (`HTTP error! status: ...`) or
an unreadable body, then enter the read loop. -/
def streamTry (cfg : AIStreamCfg) (s : StreamSt) (conn : ConnResult)
    (reads : List ReadResult) : StreamSt × List SEvent × LoopStatus :=
  match conn with
  | ConnResult.connThrew v => (s, [], LoopStatus.stoppedThrew v)
  | ConnResult.connOk ok status hasBody =>
    if !ok then
      (s, [], LoopStatus.stoppedThrew
        (JSVal.errV ⟨"Error", "HTTP error! status: " ++ toString status⟩))
    else if !hasBody then
      (s, [], LoopStatus.stoppedThrew
        (JSVal.errV ⟨"Error", "Response body is not readable"⟩))
    else readLoop cfg s reads

/-- The `catch`/`finally` of `startStream` (lines 190–202): an
`AbortError` is swallowed; any other thrown value is wrapped, stored in
`error`, clears `isStreaming` and fires `onError`; the `finally` nulls
the controller ref.  A still-suspended loop has reached neither block. -/
def streamCatchFin (sevs : StreamSt × List SEvent × LoopStatus) :
    StreamSt × List SEvent :=
  match sevs with
  | (s, evs, LoopStatus.completed) => ({ s with ctrlPresent := false }, evs)
  | (s, evs, LoopStatus.reading) => (s, evs)
  | (s, evs, LoopStatus.stoppedThrew v) =>
    if isAbortError v then ({ s with ctrlPresent := false }, evs)
    else
      ({ s with
          error := some (jsToError v)
          isStreaming := false
          ctrlPresent := false },
        evs ++ [SEvent.errorEv (jsToError v)])

/-- A complete `startStream` invocation that runs to rest: reset phase,
connection, read loop, catch/finally. -/
def runStream (cfg : AIStreamCfg) (s : StreamSt) (conn : ConnResult)
    (reads : List ReadResult) : StreamSt × List SEvent :=
  streamCatchFin (streamTry cfg (streamStartPhase s) conn reads)

/-- A `startStream` invocation interrupted by the user: the loop consumes
`reads` and suspends awaiting the next chunk, `abort()` is called, and
the pending read then rejects with an `AbortError` handled by the
`catch`/`finally`. -/
def runStreamThenAbort (cfg : AIStreamCfg) (s : StreamSt) (conn : ConnResult)
    (reads : List ReadResult) : StreamSt × List SEvent :=
  match streamTry cfg (streamStartPhase s) conn reads with
  | (s1, evs1, LoopStatus.reading) =>
    streamCatchFin (abortFn s1, evs1,
      LoopStatus.stoppedThrew (JSVal.errV ⟨"AbortError", "The user aborted a request."⟩))
  | r => streamCatchFin r

example :
    (runStream ⟨none⟩ initStreamSt (ConnResult.connOk true 200 true)
      [ReadResult.chunkR "a", ReadResult.chunkR "b", ReadResult.doneR]).1.data
      = "ab" := by decide

/-! ## Theorems: stream consumer -/

/-- C8: a raw chunk whose transform returns the SKIP sentinel (`null`)
leaves the accumulated text unchanged and fires no per-chunk callback
(the loop behaves as if the chunk had not arrived); any other chunk has
its (possibly transformed) text appended to the accumulator and the
per-chunk callback fired with the transformed chunk, both when a
transform is configured and when none is. -/
theorem useAIStream_chunk_skip_append (cfg : AIStreamCfg) (s : StreamSt)
    (raw : String) (rest : List ReadResult) :
    (∀ f, cfg.parseChunk = some f → f raw = Except.ok none →
      readLoop cfg s (ReadResult.chunkR raw :: rest) = readLoop cfg s rest) ∧
    (∀ f p, cfg.parseChunk = some f → f raw = Except.ok (some p) →
      readLoop cfg s (ReadResult.chunkR raw :: rest) =
        ((readLoop cfg
            { s with accumulated := s.accumulated ++ p, data := s.accumulated ++ p }
            rest).1,
          SEvent.chunkEv p ::
            (readLoop cfg
              { s with accumulated := s.accumulated ++ p, data := s.accumulated ++ p }
              rest).2.1,
          (readLoop cfg
            { s with accumulated := s.accumulated ++ p, data := s.accumulated ++ p }
            rest).2.2)) ∧
    (cfg.parseChunk = none →
      readLoop cfg s (ReadResult.chunkR raw :: rest) =
        ((readLoop cfg
            { s with accumulated := s.accumulated ++ raw, data := s.accumulated ++ raw }
            rest).1,
          SEvent.chunkEv raw ::
            (readLoop cfg
              { s with accumulated := s.accumulated ++ raw, data := s.accumulated ++ raw }
              rest).2.1,
          (readLoop cfg
            { s with accumulated := s.accumulated ++ raw, data := s.accumulated ++ raw }
            rest).2.2)) := by
  refine ⟨?_, ?_, ?_⟩
  · intro f hf hr
    simp [readLoop, hf, hr]
  · intro f p hf hr
    simp [readLoop, hf, hr]
  · intro hn
    simp [readLoop, hn]

/-- Witness for C8: concrete skip, transform, and no-transform chunks. -/
theorem useAIStream_chunk_skip_append_witness :
    (readLoop ⟨some fun _ => Except.ok none⟩ initStreamSt [ReadResult.chunkR "x"]
      = readLoop ⟨some fun _ => Except.ok none⟩ initStreamSt []) ∧
    (readLoop ⟨some fun c => Except.ok (some (c ++ "!"))⟩ initStreamSt
        [ReadResult.chunkR "x"]
      = ((readLoop ⟨some fun c => Except.ok (some (c ++ "!"))⟩
            { initStreamSt with accumulated := "" ++ "x!", data := "" ++ "x!" } []).1,
          SEvent.chunkEv "x!" ::
            (readLoop ⟨some fun c => Except.ok (some (c ++ "!"))⟩
              { initStreamSt with accumulated := "" ++ "x!", data := "" ++ "x!" } []).2.1,
          (readLoop ⟨some fun c => Except.ok (some (c ++ "!"))⟩
            { initStreamSt with accumulated := "" ++ "x!", data := "" ++ "x!" } []).2.2)) ∧
    (readLoop ⟨none⟩ initStreamSt [ReadResult.chunkR "x"]
      = ((readLoop ⟨none⟩
            { initStreamSt with accumulated := "" ++ "x", data := "" ++ "x" } []).1,
          SEvent.chunkEv "x" ::
            (readLoop ⟨none⟩
              { initStreamSt with accumulated := "" ++ "x", data := "" ++ "x" } []).2.1,
          (readLoop ⟨none⟩
            { initStreamSt with accumulated := "" ++ "x", data := "" ++ "x" } []).2.2)) :=
  ⟨(useAIStream_chunk_skip_append ⟨some fun _ => Except.ok none⟩ initStreamSt "x" []).1
      _ rfl rfl,
    (useAIStream_chunk_skip_append ⟨some fun c => Except.ok (some (c ++ "!"))⟩
        initStreamSt "x" []).2.1 _ _ rfl rfl,
    (useAIStream_chunk_skip_append ⟨none⟩ initStreamSt "x" []).2.2 rfl⟩

/-- C10: when a read rejects with a non-abort error, the loop stops with
nothing consumed from the remaining reads and no state change, and the
catch block changes only `error`, `isStreaming` (and the internal
controller ref): `data`, `accumulated` and `isComplete` are exactly as
they were at the failure, and the stored error is the thrown `Error`,
with a non-`Error` thrown value wrapped as `new Error(String(value))` —
in the stream hook and in the controller alike. -/
theorem useAIStream_failure_frame {A T : Type} (cfg : AIStreamCfg)
    (s : StreamSt) (v : JSVal) (rest : List ReadResult) (evs : List SEvent)
    (cfgA : UseAsyncCfg) (g : Global T) (c : Ctrl A T) (x : String) (now : Nat)
    (hv : isAbortError v = false) (hlive : currentAborted g c = false) :
    readLoop cfg s (ReadResult.threwR v :: rest) = (s, [], LoopStatus.stoppedThrew v) ∧
    streamCatchFin (s, evs, LoopStatus.stoppedThrew v) =
      ({ s with
          error := some (jsToError v)
          isStreaming := false
          ctrlPresent := false },
        evs ++ [SEvent.errorEv (jsToError v)]) ∧
    jsToError (JSVal.strV x) = ⟨"Error", x⟩ ∧
    (executeResume cfgA g c (Except.error (JSVal.strV x)) now).2.1.state.error
      = some ⟨"Error", x⟩ := by
  refine ⟨by simp [readLoop], by simp [streamCatchFin, hv], rfl, ?_⟩
  by_cases h : c.retryCnt < cfgA.retryCount <;>
    simp [executeResume, hlive, jsToError, h]

/-- Witness for C10: a stream failing on a string thrown value after one
chunk, and a controller rejection with the same string. -/
theorem useAIStream_failure_frame_witness :
    streamCatchFin
        (⟨"a", true, false, none, "a", true⟩, [SEvent.chunkEv "a"],
          LoopStatus.stoppedThrew (JSVal.strV "boom"))
      = (⟨"a", false, false, some ⟨"Error", "boom"⟩, "a", false⟩,
          [SEvent.chunkEv "a", SEvent.errorEv ⟨"Error", "boom"⟩]) ∧
    (executeResume (A := Nat) (T := Nat) {} ⟨[], [false]⟩
        ⟨initAsyncState Nat, 0, [], some 0⟩
        (Except.error (JSVal.strV "boom")) 0).2.1.state.error
      = some ⟨"Error", "boom"⟩ :=
  ⟨(useAIStream_failure_frame (A := Nat) (T := Nat) ⟨none⟩
      ⟨"a", true, false, none, "a", true⟩ (JSVal.strV "boom") [] [SEvent.chunkEv "a"]
      {} ⟨[], [false]⟩ ⟨initAsyncState Nat, 0, [], some 0⟩ "boom" 0
      (by decide) (by decide)).2.1,
    (useAIStream_failure_frame (A := Nat) (T := Nat) ⟨none⟩
      ⟨"a", true, false, none, "a", true⟩ (JSVal.strV "boom") [] [SEvent.chunkEv "a"]
      {} ⟨[], [false]⟩ ⟨initAsyncState Nat, 0, [], some 0⟩ "boom" 0
      (by decide) (by decide)).2.2.2⟩

/-- A concrete chunk transform that throws on the chunk `"boom"` and
passes every other chunk through unchanged. -/
def throwingParse : String → ParseResult := fun c =>
  if c == "boom" then Except.error (JSVal.errV ⟨"TypeError", "bad chunk"⟩)
  else Except.ok (some c)

/-- Counterexample to C4 as stated: with a transform that throws on the
second chunk, the stream does NOT skip that chunk and continue — the
error state is set, the error callback fires, the remaining chunk and
the end-of-data marker are never consumed, and the stream ends
incomplete with only the first chunk accumulated. -/
theorem useAIStream_transform_throw_ce :
    (runStream ⟨some throwingParse⟩ initStreamSt (ConnResult.connOk true 200 true)
        [ReadResult.chunkR "a", ReadResult.chunkR "boom", ReadResult.chunkR "c",
          ReadResult.doneR]).1.error = some ⟨"TypeError", "bad chunk"⟩ ∧
    (runStream ⟨some throwingParse⟩ initStreamSt (ConnResult.connOk true 200 true)
        [ReadResult.chunkR "a", ReadResult.chunkR "boom", ReadResult.chunkR "c",
          ReadResult.doneR]).1.isComplete = false ∧
    (runStream ⟨some throwingParse⟩ initStreamSt (ConnResult.connOk true 200 true)
        [ReadResult.chunkR "a", ReadResult.chunkR "boom", ReadResult.chunkR "c",
          ReadResult.doneR]).1.data = "a" ∧
    (runStream ⟨some throwingParse⟩ initStreamSt (ConnResult.connOk true 200 true)
        [ReadResult.chunkR "a", ReadResult.chunkR "boom", ReadResult.chunkR "c",
          ReadResult.doneR]).2
      = [SEvent.chunkEv "a", SEvent.errorEv ⟨"TypeError", "bad chunk"⟩] := by
  decide

/-- C4 amended: a throwing chunk-transform is NOT caught per-chunk.  The
exception propagates out of the read loop immediately — the throwing
chunk and all later reads are dropped, no further per-chunk callback
fires — and the catch block then treats it like any other non-abort
failure: `error` is set to the (wrapped) thrown value, `isStreaming`
clears, and the error callback fires; the stream terminates without
completing. -/
theorem useAIStream_transform_throw_propagates (cfg : AIStreamCfg)
    (s : StreamSt) (f : String → ParseResult) (raw : String) (v : JSVal)
    (rest : List ReadResult) (evs : List SEvent)
    (hf : cfg.parseChunk = some f) (hr : f raw = Except.error v)
    (hv : isAbortError v = false) :
    readLoop cfg s (ReadResult.chunkR raw :: rest) = (s, [], LoopStatus.stoppedThrew v) ∧
    streamCatchFin (s, evs, LoopStatus.stoppedThrew v) =
      ({ s with
          error := some (jsToError v)
          isStreaming := false
          ctrlPresent := false },
        evs ++ [SEvent.errorEv (jsToError v)]) := by
  exact ⟨by simp [readLoop, hf, hr], by simp [streamCatchFin, hv]⟩

/-- Witness for the amended C4, at the same concrete transform. -/
theorem useAIStream_transform_throw_propagates_witness :
    readLoop ⟨some throwingParse⟩ initStreamSt
        [ReadResult.chunkR "boom", ReadResult.chunkR "c"]
      = (initStreamSt, [],
          LoopStatus.stoppedThrew (JSVal.errV ⟨"TypeError", "bad chunk"⟩)) :=
  (useAIStream_transform_throw_propagates ⟨some throwingParse⟩ initStreamSt
    throwingParse "boom" (JSVal.errV ⟨"TypeError", "bad chunk"⟩)
    [ReadResult.chunkR "c"] [] rfl rfl (by decide)).1

/-- A read loop that is still suspended awaiting the next chunk has only
processed chunks: `error`, `isComplete`, `isStreaming` and the
controller ref are untouched, and every event fired so far is a
per-chunk callback. -/
theorem readLoop_reading_frame (cfg : AIStreamCfg) (reads : List ReadResult) :
    ∀ s : StreamSt, (readLoop cfg s reads).2.2 = LoopStatus.reading →
      (readLoop cfg s reads).1.error = s.error ∧
      (readLoop cfg s reads).1.isComplete = s.isComplete ∧
      (readLoop cfg s reads).1.isStreaming = s.isStreaming ∧
      (readLoop cfg s reads).1.ctrlPresent = s.ctrlPresent ∧
      (∀ e ∈ (readLoop cfg s reads).2.1, ∃ ch, e = SEvent.chunkEv ch) := by
  induction reads with
  | nil => intro s _; simp [readLoop]
  | cons r rest ih =>
    intro s h
    cases r with
    | doneR => simp [readLoop] at h
    | threwR v => simp [readLoop] at h
    | chunkR raw =>
      cases hp : cfg.parseChunk with
      | none =>
        simp only [readLoop, hp] at h ⊢
        obtain ⟨h1, h2, h3, h4, h5⟩ := ih _ h
        refine ⟨h1, h2, h3, h4, ?_⟩
        intro e he
        rcases List.mem_cons.mp he with he | he
        · exact ⟨raw, he⟩
        · exact h5 e he
      | some f =>
        cases hr : f raw with
        | error v => simp [readLoop, hp, hr] at h
        | ok po =>
          cases po with
          | none =>
            simp only [readLoop, hp, hr] at h ⊢
            exact ih _ h
          | some p =>
            simp only [readLoop, hp, hr] at h ⊢
            obtain ⟨h1, h2, h3, h4, h5⟩ := ih _ h
            refine ⟨h1, h2, h3, h4, ?_⟩
            intro e he
            rcases List.mem_cons.mp he with he | he
            · exact ⟨p, he⟩
            · exact h5 e he

/-- C7: aborting an in-progress stream (the loop is suspended awaiting
the next chunk) ends it with `error = none`, `isComplete = false`,
`isStreaming = false`, the accumulated text exactly as it was at the
moment of abort, and no completion or error callback — every fired
event is a per-chunk callback from before the abort. -/
theorem useAIStream_abort_semantics (cfg : AIStreamCfg) (s0 : StreamSt)
    (conn : ConnResult) (reads : List ReadResult)
    (h : (streamTry cfg (streamStartPhase s0) conn reads).2.2 = LoopStatus.reading) :
    (runStreamThenAbort cfg s0 conn reads).1.error = none ∧
    (runStreamThenAbort cfg s0 conn reads).1.isComplete = false ∧
    (runStreamThenAbort cfg s0 conn reads).1.isStreaming = false ∧
    (runStreamThenAbort cfg s0 conn reads).1.data
      = (streamTry cfg (streamStartPhase s0) conn reads).1.data ∧
    (runStreamThenAbort cfg s0 conn reads).1.accumulated
      = (streamTry cfg (streamStartPhase s0) conn reads).1.accumulated ∧
    (runStreamThenAbort cfg s0 conn reads).2
      = (streamTry cfg (streamStartPhase s0) conn reads).2.1 ∧
    (∀ e ∈ (runStreamThenAbort cfg s0 conn reads).2, ∃ ch, e = SEvent.chunkEv ch) := by
  cases conn with
  | connThrew v => simp [streamTry] at h
  | connOk ok status hasBody =>
    cases ok with
    | false => simp [streamTry] at h
    | true =>
      cases hasBody with
      | false => simp [streamTry] at h
      | true =>
        have hT : streamTry cfg (streamStartPhase s0) (ConnResult.connOk true status true)
            reads = readLoop cfg (streamStartPhase s0) reads := by
          simp [streamTry]
        rw [hT] at h ⊢
        obtain ⟨h1, h2, h3, h4, h5⟩ := readLoop_reading_frame cfg reads (streamStartPhase s0) h
        rcases hE : readLoop cfg (streamStartPhase s0) reads with ⟨s1, evs1, st⟩
        rw [hE] at h h1 h2 h3 h4 h5
        simp only at h h1 h2 h3 h4 h5
        subst h
        have hC : s1.ctrlPresent = true := by
          rw [h4]; rfl
        have hA : abortFn s1 = { s1 with ctrlPresent := false, isStreaming := false } := by
          simp [abortFn, hC]
        simp only [runStreamThenAbort, hT, hE, hA, streamCatchFin, isAbortError]
        simp only [streamStartPhase] at h1 h2
        simp [h1, h2, h5]
        exact h5

/-- Witness for C7: abort after two chunks of a plain stream. -/
theorem useAIStream_abort_semantics_witness :
    (runStreamThenAbort ⟨none⟩ initStreamSt (ConnResult.connOk true 200 true)
        [ReadResult.chunkR "he", ReadResult.chunkR "llo"]).1.error = none ∧
    (runStreamThenAbort ⟨none⟩ initStreamSt (ConnResult.connOk true 200 true)
        [ReadResult.chunkR "he", ReadResult.chunkR "llo"]).1.isComplete = false ∧
    (runStreamThenAbort ⟨none⟩ initStreamSt (ConnResult.connOk true 200 true)
        [ReadResult.chunkR "he", ReadResult.chunkR "llo"]).1.isStreaming = false ∧
    (runStreamThenAbort ⟨none⟩ initStreamSt (ConnResult.connOk true 200 true)
        [ReadResult.chunkR "he", ReadResult.chunkR "llo"]).1.data
      = (streamTry ⟨none⟩ (streamStartPhase initStreamSt)
          (ConnResult.connOk true 200 true)
          [ReadResult.chunkR "he", ReadResult.chunkR "llo"]).1.data :=
  have h := useAIStream_abort_semantics ⟨none⟩ initStreamSt
    (ConnResult.connOk true 200 true)
    [ReadResult.chunkR "he", ReadResult.chunkR "llo"] (by decide)
  ⟨h.1, h.2.1, h.2.2.1, h.2.2.2.1⟩

/-! ## Theorems: operation controller -/

/-- C2: after a successful invocation with a configured cache key and a
positive staleness window, a second `execute` issued while the entry is
fresh performs no invocation of the wrapped operation: it is answered
from the cache with the identical value, sets success state with that
value, fires only the success callback, and returns the cached value. -/
theorem useAsync_cache_fresh_hit {A T : Type} (cfg : UseAsyncCfg) (k : String)
    (g : Global T) (c : Ctrl A T) (r : T) (t0 t1 : Nat) (args2 : List A)
    (hk : cfg.cacheKey = some k) (hw : 0 < cfg.staleTime)
    (hlive : currentAborted g c = false) (hfresh : t1 - t0 < cfg.staleTime) :
    (executeResume cfg g c (Except.ok r) t0).2.2.2 = ResumeRes.returned r ∧
    (executeStart cfg (executeResume cfg g c (Except.ok r) t0).1
        (executeResume cfg g c (Except.ok r) t0).2.1 args2 t1).2.2.2
      = StartRes.hit r ∧
    (executeStart cfg (executeResume cfg g c (Except.ok r) t0).1
        (executeResume cfg g c (Except.ok r) t0).2.1 args2 t1).2.1.state
      = ⟨some r, false, none, true⟩ ∧
    (executeStart cfg (executeResume cfg g c (Except.ok r) t0).1
        (executeResume cfg g c (Except.ok r) t0).2.1 args2 t1).2.2.1
      = [AEvent.successEv r] := by
  have hR : executeResume cfg g c (Except.ok r) t0
      = ({ g with cache := cacheSet g.cache k ⟨r, t0⟩ },
          { c with state := ⟨some r, false, none, true⟩, retryCnt := 0 },
          [AEvent.successEv r], ResumeRes.returned r) := by
    simp [executeResume, hlive, hk]
  rw [hR]
  refine ⟨rfl, ?_⟩
  cases hc : c.current with
  | none =>
    simp [executeStart, hc, hk, hw, cacheGet, cacheSet, hfresh]
  | some t =>
    simp [executeStart, hc, hk, hw, abortToken, cacheGet, cacheSet, hfresh]

/-- Witness for C2: a concrete success at time 0 followed by a second
call at time 3 within a staleness window of 5. -/
theorem useAsync_cache_fresh_hit_witness :
    (executeStart (A := Nat) (T := Nat) ⟨0, 1000, 5, some "k"⟩
        (executeResume ⟨0, 1000, 5, some "k"⟩ ⟨[], [false]⟩
          ⟨initAsyncState Nat, 0, [1], some 0⟩ (Except.ok 42) 0).1
        (executeResume ⟨0, 1000, 5, some "k"⟩ ⟨[], [false]⟩
          ⟨initAsyncState Nat, 0, [1], some 0⟩ (Except.ok 42) 0).2.1 [2] 3).2.2.2
      = StartRes.hit 42 ∧
    (executeStart (A := Nat) (T := Nat) ⟨0, 1000, 5, some "k"⟩
        (executeResume ⟨0, 1000, 5, some "k"⟩ ⟨[], [false]⟩
          ⟨initAsyncState Nat, 0, [1], some 0⟩ (Except.ok 42) 0).1
        (executeResume ⟨0, 1000, 5, some "k"⟩ ⟨[], [false]⟩
          ⟨initAsyncState Nat, 0, [1], some 0⟩ (Except.ok 42) 0).2.1 [2] 3).2.2.1
      = [AEvent.successEv 42] :=
  have h := useAsync_cache_fresh_hit (A := Nat) (T := Nat) ⟨0, 1000, 5, some "k"⟩
    "k" ⟨[], [false]⟩ ⟨initAsyncState Nat, 0, [1], some 0⟩ 42 0 3 [2]
    rfl (by decide) (by decide) (by decide)
  ⟨h.2.1, h.2.2.2⟩

/-- C9: a failed invocation whose abort check passes records the error in
state (`error` set, `loading` and `success` cleared), fires the error
callback with the wrapped error, and re-throws that same error to the
direct caller — the throw happens whether or not a retry was also
scheduled, and the retry flag is exactly `retryCountRef < retryCount`. -/
theorem useAsync_failure_reported {A T : Type} (cfg : UseAsyncCfg)
    (g : Global T) (c : Ctrl A T) (v : JSVal) (now : Nat)
    (hlive : currentAborted g c = false) :
    (executeResume cfg g c (Except.error v) now).2.1.state.error
      = some (jsToError v) ∧
    (executeResume cfg g c (Except.error v) now).2.1.state.loading = false ∧
    (executeResume cfg g c (Except.error v) now).2.1.state.success = false ∧
    AEvent.errorEv (A := A) (T := T) (jsToError v)
      ∈ (executeResume cfg g c (Except.error v) now).2.2.1 ∧
    (executeResume cfg g c (Except.error v) now).2.2.2
      = ResumeRes.threw (jsToError v) (decide (c.retryCnt < cfg.retryCount)) := by
  by_cases h : c.retryCnt < cfg.retryCount <;>
    simp [executeResume, hlive, h]

/-- Witness for C9: a failure with a retry scheduled alongside the
throw (`retryCount = 1`, first attempt). -/
theorem useAsync_failure_reported_witness :
    (executeResume (A := Nat) (T := Nat) ⟨1, 5, 0, none⟩ ⟨[], [false]⟩
        ⟨initAsyncState Nat, 0, [3], some 0⟩
        (Except.error (JSVal.errV ⟨"Error", "x"⟩)) 0).2.1.state.error
      = some ⟨"Error", "x"⟩ ∧
    (executeResume (A := Nat) (T := Nat) ⟨1, 5, 0, none⟩ ⟨[], [false]⟩
        ⟨initAsyncState Nat, 0, [3], some 0⟩
        (Except.error (JSVal.errV ⟨"Error", "x"⟩)) 0).2.2.2
      = ResumeRes.threw ⟨"Error", "x"⟩ true :=
  have h := useAsync_failure_reported (A := Nat) (T := Nat) ⟨1, 5, 0, none⟩
    ⟨[], [false]⟩ ⟨initAsyncState Nat, 0, [3], some 0⟩
    (JSVal.errV ⟨"Error", "x"⟩) 0 (by decide)
  ⟨h.1, h.2.2.2.2⟩

/-- Setting an in-range index makes it read back as set. -/
theorem getD_set_self_true (l : List Bool) :
    ∀ t, t < l.length → (l.set t true).getD t false = true := by
  induction l with
  | nil => intro t ht; simp at ht
  | cons b bs ih =>
    intro t ht
    cases t with
    | zero => rfl
    | succ t' =>
      have := ih t' (by simpa using ht)
      simpa [List.set, List.getD] using this

/-- Counterexample to C6 as stated: an `execute` call that is answered
by a fresh cache hit nonetheless cancels the operation in flight in the
same slot — the abort happens unconditionally before the cache is ever
consulted.  Controller with token 0 in flight, fresh entry for key "k":
the call is a hit, yet token 0 ends aborted. -/
theorem useAsync_hit_aborts_inflight_ce :
    ((executeStart (A := Nat) (T := Nat) ⟨0, 1000, 5, some "k"⟩
        ⟨[("k", ⟨42, 0⟩)], [false]⟩ ⟨initAsyncState Nat, 0, [1], some 0⟩ [2] 1).2.2.2
      = StartRes.hit 42) ∧
    ((executeStart (A := Nat) (T := Nat) ⟨0, 1000, 5, some "k"⟩
        ⟨[("k", ⟨42, 0⟩)], [false]⟩ ⟨initAsyncState Nat, 0, [1], some 0⟩ [2] 1).1.tokens
      = [true]) := by
  decide

/-- C6 amended: every `execute` call aborts the controller currently in
the ref FIRST, before the cache is consulted — so a fresh hit does
cancel in-flight work in the slot; what a fresh hit does not do is mint
a new token: the token pool is left at exactly the one abort, and the
ref still holds the (now aborted) previous controller. -/
theorem useAsync_abort_precedes_cache {A T : Type} (cfg : UseAsyncCfg)
    (g : Global T) (c : Ctrl A T) (args : List A) (now : Nat) (t : Nat)
    (hcur : c.current = some t) (ht : t < g.tokens.length) :
    (executeStart cfg g c args now).1.tokens.getD t false = true ∧
    ∀ v, (executeStart cfg g c args now).2.2.2 = StartRes.hit v →
      (executeStart cfg g c args now).1.tokens = g.tokens.set t true ∧
      (executeStart cfg g c args now).2.1.current = c.current := by
  have hset : (g.tokens.set t true).getD t false = true :=
    getD_set_self_true g.tokens t ht
  simp only [executeStart, hcur, abortToken]
  split
  · exact ⟨hset, fun w _ => ⟨rfl, rfl⟩⟩
  · refine ⟨?_, fun w hw => by simp at hw⟩
    rw [List.getD_append _ _ _ _ (by simpa using ht)]
    exact hset

/-- Witness for the amended C6: the counterexample configuration — a
fresh hit with token 0 in flight. -/
theorem useAsync_abort_precedes_cache_witness :
    (executeStart (A := Nat) (T := Nat) ⟨0, 1000, 5, some "k"⟩
        ⟨[("k", ⟨42, 0⟩)], [false]⟩ ⟨initAsyncState Nat, 0, [1], some 0⟩ [2] 1).1.tokens.getD
        0 false = true ∧
    (executeStart (A := Nat) (T := Nat) ⟨0, 1000, 5, some "k"⟩
        ⟨[("k", ⟨42, 0⟩)], [false]⟩ ⟨initAsyncState Nat, 0, [1], some 0⟩ [2] 1).1.tokens
      = [false].set 0 true :=
  have h := useAsync_abort_precedes_cache (A := Nat) (T := Nat)
    ⟨0, 1000, 5, some "k"⟩ ⟨[("k", ⟨42, 0⟩)], [false]⟩
    ⟨initAsyncState Nat, 0, [1], some 0⟩ [2] 1 0 rfl (by decide)
  ⟨h.1, (h.2 42 (by decide)).1⟩

/-- Counterexample to C5 as stated: on a controller on which no
invocation has ever occurred, `retry()` is NOT a no-op — it runs
`execute()` with the empty recorded argument list, which invokes the
wrapped operation with no arguments, sets `loading`, and mints a
token. -/
theorem useAsync_retry_no_prior_ce :
    ((retryStart (A := Nat) (T := Nat) {} ⟨[], []⟩ (initCtrl Nat Nat) 0).2.2.1
      = [AEvent.invokeEv []]) ∧
    ((retryStart (A := Nat) (T := Nat) {} ⟨[], []⟩ (initCtrl Nat Nat) 0).2.1.state.loading
      = true) ∧
    ((retryStart (A := Nat) (T := Nat) {} ⟨[], []⟩ (initCtrl Nat Nat) 0).2.2.2
      = StartRes.started) := by
  decide

/-- C5 amended: `retry()` before any invocation re-executes with the
initial (empty) `lastArgsRef`: when no fresh cache hit intervenes (here:
no cache key configured), the wrapped operation IS invoked with no
arguments and the normal execute lifecycle runs — `loading` is set, a
fresh token is minted and recorded in the ref. -/
theorem useAsync_retry_no_prior_executes {A T : Type} (cfg : UseAsyncCfg)
    (g : Global T) (now : Nat) (hk : cfg.cacheKey = none) :
    (retryStart cfg g (initCtrl A T) now).2.2.1 = [AEvent.invokeEv []] ∧
    (retryStart cfg g (initCtrl A T) now).2.1.state.loading = true ∧
    (retryStart cfg g (initCtrl A T) now).2.2.2 = StartRes.started ∧
    (retryStart cfg g (initCtrl A T) now).2.1.current = some g.tokens.length ∧
    (retryStart cfg g (initCtrl A T) now).1.tokens = g.tokens ++ [false] := by
  simp [retryStart, executeStart, initCtrl, hk]

/-- Witness for the amended C5. -/
theorem useAsync_retry_no_prior_executes_witness :
    (retryStart (A := Nat) (T := Nat) {} ⟨[], []⟩ (initCtrl Nat Nat) 0).2.2.1
      = [AEvent.invokeEv []] ∧
    (retryStart (A := Nat) (T := Nat) {} ⟨[], []⟩ (initCtrl Nat Nat) 0).2.1.current
      = some ([] : List Bool).length :=
  have h := useAsync_retry_no_prior_executes (A := Nat) (T := Nat) {} ⟨[], []⟩ 0 rfl
  ⟨h.1, h.2.2.2.1⟩

/-- C1, evaluated at the failing interleaving: `execute([1])` starts;
before it resolves, `execute([2])` supersedes it (aborting token 0 and
installing token 1 in the shared ref); the second operation resolves 20
and is applied; the first operation then resolves 10 — its continuation
re-reads the SHARED ref, finds the (unaborted) token 1, passes the
staleness check, and applies its stale result: final `data = 10`, the
cache entry for "k" is overwritten with 10, and the stale call even
returns 10 to its caller.  The final observable state reflects the
FIRST call's outcome, not the second's. -/
theorem useAsync_stale_result_applied :
    ((executeResume ⟨0, 1000, 0, some "k"⟩
        (executeResume (A := Nat) (T := Nat) ⟨0, 1000, 0, some "k"⟩
          (executeStart ⟨0, 1000, 0, some "k"⟩
            (executeStart ⟨0, 1000, 0, some "k"⟩ ⟨[], []⟩ (initCtrl Nat Nat) [1] 0).1
            (executeStart ⟨0, 1000, 0, some "k"⟩ ⟨[], []⟩ (initCtrl Nat Nat) [1] 0).2.1
            [2] 1).1
          (executeStart ⟨0, 1000, 0, some "k"⟩
            (executeStart ⟨0, 1000, 0, some "k"⟩ ⟨[], []⟩ (initCtrl Nat Nat) [1] 0).1
            (executeStart ⟨0, 1000, 0, some "k"⟩ ⟨[], []⟩ (initCtrl Nat Nat) [1] 0).2.1
            [2] 1).2.1
          (Except.ok 20) 2).1
        (executeResume (A := Nat) (T := Nat) ⟨0, 1000, 0, some "k"⟩
          (executeStart ⟨0, 1000, 0, some "k"⟩
            (executeStart ⟨0, 1000, 0, some "k"⟩ ⟨[], []⟩ (initCtrl Nat Nat) [1] 0).1
            (executeStart ⟨0, 1000, 0, some "k"⟩ ⟨[], []⟩ (initCtrl Nat Nat) [1] 0).2.1
            [2] 1).1
          (executeStart ⟨0, 1000, 0, some "k"⟩
            (executeStart ⟨0, 1000, 0, some "k"⟩ ⟨[], []⟩ (initCtrl Nat Nat) [1] 0).1
            (executeStart ⟨0, 1000, 0, some "k"⟩ ⟨[], []⟩ (initCtrl Nat Nat) [1] 0).2.1
            [2] 1).2.1
          (Except.ok 20) 2).2.1
        (Except.ok 10) 3).2.1.state.data = some 10) ∧
    ((executeResume ⟨0, 1000, 0, some "k"⟩
        (executeResume (A := Nat) (T := Nat) ⟨0, 1000, 0, some "k"⟩
          (executeStart ⟨0, 1000, 0, some "k"⟩
            (executeStart ⟨0, 1000, 0, some "k"⟩ ⟨[], []⟩ (initCtrl Nat Nat) [1] 0).1
            (executeStart ⟨0, 1000, 0, some "k"⟩ ⟨[], []⟩ (initCtrl Nat Nat) [1] 0).2.1
            [2] 1).1
          (executeStart ⟨0, 1000, 0, some "k"⟩
            (executeStart ⟨0, 1000, 0, some "k"⟩ ⟨[], []⟩ (initCtrl Nat Nat) [1] 0).1
            (executeStart ⟨0, 1000, 0, some "k"⟩ ⟨[], []⟩ (initCtrl Nat Nat) [1] 0).2.1
            [2] 1).2.1
          (Except.ok 20) 2).1
        (executeResume (A := Nat) (T := Nat) ⟨0, 1000, 0, some "k"⟩
          (executeStart ⟨0, 1000, 0, some "k"⟩
            (executeStart ⟨0, 1000, 0, some "k"⟩ ⟨[], []⟩ (initCtrl Nat Nat) [1] 0).1
            (executeStart ⟨0, 1000, 0, some "k"⟩ ⟨[], []⟩ (initCtrl Nat Nat) [1] 0).2.1
            [2] 1).1
          (executeStart ⟨0, 1000, 0, some "k"⟩
            (executeStart ⟨0, 1000, 0, some "k"⟩ ⟨[], []⟩ (initCtrl Nat Nat) [1] 0).1
            (executeStart ⟨0, 1000, 0, some "k"⟩ ⟨[], []⟩ (initCtrl Nat Nat) [1] 0).2.1
            [2] 1).2.1
          (Except.ok 20) 2).2.1
        (Except.ok 10) 3).2.2.2 = ResumeRes.returned 10) ∧
    (cacheGet (executeResume ⟨0, 1000, 0, some "k"⟩
        (executeResume (A := Nat) (T := Nat) ⟨0, 1000, 0, some "k"⟩
          (executeStart ⟨0, 1000, 0, some "k"⟩
            (executeStart ⟨0, 1000, 0, some "k"⟩ ⟨[], []⟩ (initCtrl Nat Nat) [1] 0).1
            (executeStart ⟨0, 1000, 0, some "k"⟩ ⟨[], []⟩ (initCtrl Nat Nat) [1] 0).2.1
            [2] 1).1
          (executeStart ⟨0, 1000, 0, some "k"⟩
            (executeStart ⟨0, 1000, 0, some "k"⟩ ⟨[], []⟩ (initCtrl Nat Nat) [1] 0).1
            (executeStart ⟨0, 1000, 0, some "k"⟩ ⟨[], []⟩ (initCtrl Nat Nat) [1] 0).2.1
            [2] 1).2.1
          (Except.ok 20) 2).1
        (executeResume (A := Nat) (T := Nat) ⟨0, 1000, 0, some "k"⟩
          (executeStart ⟨0, 1000, 0, some "k"⟩
            (executeStart ⟨0, 1000, 0, some "k"⟩ ⟨[], []⟩ (initCtrl Nat Nat) [1] 0).1
            (executeStart ⟨0, 1000, 0, some "k"⟩ ⟨[], []⟩ (initCtrl Nat Nat) [1] 0).2.1
            [2] 1).1
          (executeStart ⟨0, 1000, 0, some "k"⟩
            (executeStart ⟨0, 1000, 0, some "k"⟩ ⟨[], []⟩ (initCtrl Nat Nat) [1] 0).1
            (executeStart ⟨0, 1000, 0, some "k"⟩ ⟨[], []⟩ (initCtrl Nat Nat) [1] 0).2.1
            [2] 1).2.1
          (Except.ok 20) 2).2.1
        (Except.ok 10) 3).1.cache "k" = some ⟨10, 3⟩) := by
  decide

/-- Scheduled-retry count distributes over event concatenation. -/
theorem countRetrySched_append {A T : Type} (a b : List (AEvent A T)) :
    countRetrySched (a ++ b) = countRetrySched a + countRetrySched b := by
  induction a with
  | nil => simp [countRetrySched]
  | cons e rest ih =>
    cases e with
    | invokeEv a => simp [countRetrySched, ih]
    | successEv t => simp [countRetrySched, ih]
    | errorEv e => simp [countRetrySched, ih]
    | retrySchedEv d a => simp [countRetrySched, ih]; omega

/-- With no cache key configured, `execute`'s synchronous prefix always
misses: it aborts the previous controller (leaving some token list
`gt`), mints a fresh token, records the arguments, and sets loading. -/
theorem executeStart_miss {A T : Type} (cfg : UseAsyncCfg) (g : Global T)
    (c : Ctrl A T) (args : List A) (now : Nat) (hk : cfg.cacheKey = none) :
    ∃ gt : List Bool,
      executeStart cfg g c args now =
        (⟨g.cache, gt ++ [false]⟩,
          ⟨⟨c.state.data, true, none, false⟩, c.retryCnt, args, some gt.length⟩,
          [AEvent.invokeEv args], StartRes.started) := by
  cases hc : c.current with
  | none => exact ⟨g.tokens, by simp [executeStart, hc, hk]⟩
  | some t => exact ⟨g.tokens.set t true, by simp [executeStart, hc, hk, abortToken]⟩

/-- A freshly minted token at the end of the pool is not aborted. -/
theorem currentAborted_fresh {A T : Type} (cache : List (String × CacheEntry T))
    (gt : List Bool) (st : AsyncState T) (n : Nat) (args : List A) :
    currentAborted (⟨cache, gt ++ [false]⟩ : Global T)
      (⟨st, n, args, some gt.length⟩ : Ctrl A T) = false := by
  simp only [currentAborted]
  rw [List.getD_append_right _ _ _ _ (le_refl _)]
  simp [List.getD]

/-- Unfolding of one failing attempt that schedules a retry under a
cache-free configuration: the events are the invocation, the error
callback and the scheduled retry, and the run continues on the
remaining outcomes with the retry counter bumped. -/
theorem runFrom_fail_retry {A T : Type} (cfg : UseAsyncCfg) (g : Global T)
    (c : Ctrl A T) (args : List A) (now : Nat) (v : JSVal)
    (rest : List (Except JSVal T)) (hk : cfg.cacheKey = none)
    (hlt : c.retryCnt < cfg.retryCount) :
    ∃ gt : List Bool,
      runFrom cfg g c args now (Except.error v :: rest) =
        ((runFrom cfg (⟨g.cache, gt ++ [false]⟩ : Global T)
            (⟨⟨c.state.data, false, some (jsToError v), false⟩, c.retryCnt + 1,
              args, some gt.length⟩ : Ctrl A T)
            args (now + cfg.retryDelay) rest).1,
          (runFrom cfg (⟨g.cache, gt ++ [false]⟩ : Global T)
            (⟨⟨c.state.data, false, some (jsToError v), false⟩, c.retryCnt + 1,
              args, some gt.length⟩ : Ctrl A T)
            args (now + cfg.retryDelay) rest).2.1,
          [AEvent.invokeEv args, AEvent.errorEv (jsToError v),
            AEvent.retrySchedEv cfg.retryDelay args]
            ++ (runFrom cfg (⟨g.cache, gt ++ [false]⟩ : Global T)
              (⟨⟨c.state.data, false, some (jsToError v), false⟩, c.retryCnt + 1,
                args, some gt.length⟩ : Ctrl A T)
              args (now + cfg.retryDelay) rest).2.2) := by
  obtain ⟨gt, hS⟩ := executeStart_miss cfg g c args now hk
  refine ⟨gt, ?_⟩
  have hlive := currentAborted_fresh (A := A) (T := T) g.cache gt
    ⟨c.state.data, true, none, false⟩ c.retryCnt args
  have hR : executeResume cfg (⟨g.cache, gt ++ [false]⟩ : Global T)
      (⟨⟨c.state.data, true, none, false⟩, c.retryCnt, args, some gt.length⟩ : Ctrl A T)
      (Except.error v) now =
      ((⟨g.cache, gt ++ [false]⟩ : Global T),
        (⟨⟨c.state.data, false, some (jsToError v), false⟩, c.retryCnt + 1,
          args, some gt.length⟩ : Ctrl A T),
        [AEvent.errorEv (jsToError v), AEvent.retrySchedEv cfg.retryDelay args],
        ResumeRes.threw (jsToError v) true) := by
    simp [executeResume, hlive, hlt]
  simp [runFrom, hS, hR]

/-- Unfolding of one failing attempt that exhausts the retry budget: the
run stops with the error state visible and no retry scheduled. -/
theorem runFrom_fail_last {A T : Type} (cfg : UseAsyncCfg) (g : Global T)
    (c : Ctrl A T) (args : List A) (now : Nat) (v : JSVal)
    (rest : List (Except JSVal T)) (hk : cfg.cacheKey = none)
    (hnlt : ¬ c.retryCnt < cfg.retryCount) :
    ∃ gt : List Bool,
      runFrom cfg g c args now (Except.error v :: rest) =
        (⟨g.cache, gt ++ [false]⟩,
          ⟨⟨c.state.data, false, some (jsToError v), false⟩, c.retryCnt,
            args, some gt.length⟩,
          [AEvent.invokeEv args, AEvent.errorEv (jsToError v)]) := by
  obtain ⟨gt, hS⟩ := executeStart_miss cfg g c args now hk
  refine ⟨gt, ?_⟩
  have hlive := currentAborted_fresh (A := A) (T := T) g.cache gt
    ⟨c.state.data, true, none, false⟩ c.retryCnt args
  have hR : executeResume cfg (⟨g.cache, gt ++ [false]⟩ : Global T)
      (⟨⟨c.state.data, true, none, false⟩, c.retryCnt, args, some gt.length⟩ : Ctrl A T)
      (Except.error v) now =
      ((⟨g.cache, gt ++ [false]⟩ : Global T),
        (⟨⟨c.state.data, false, some (jsToError v), false⟩, c.retryCnt,
          args, some gt.length⟩ : Ctrl A T),
        [AEvent.errorEv (jsToError v)],
        ResumeRes.threw (jsToError v) false) := by
    simp [executeResume, hlive, hnlt]
  simp [runFrom, hS, hR]

/-- Unfolding of one successful attempt under a cache-free
configuration: success state with the returned value, the retry counter
zeroed, and no continuation. -/
theorem runFrom_ok {A T : Type} (cfg : UseAsyncCfg) (g : Global T)
    (c : Ctrl A T) (args : List A) (now : Nat) (r : T)
    (rest : List (Except JSVal T)) (hk : cfg.cacheKey = none) :
    ∃ gt : List Bool,
      runFrom cfg g c args now (Except.ok r :: rest) =
        (⟨g.cache, gt ++ [false]⟩,
          ⟨⟨some r, false, none, true⟩, 0, args, some gt.length⟩,
          [AEvent.invokeEv args, AEvent.successEv r]) := by
  obtain ⟨gt, hS⟩ := executeStart_miss cfg g c args now hk
  refine ⟨gt, ?_⟩
  have hlive := currentAborted_fresh (A := A) (T := T) g.cache gt
    ⟨c.state.data, true, none, false⟩ c.retryCnt args
  have hR : executeResume cfg (⟨g.cache, gt ++ [false]⟩ : Global T)
      (⟨⟨c.state.data, true, none, false⟩, c.retryCnt, args, some gt.length⟩ : Ctrl A T)
      (Except.ok r) now =
      ((⟨g.cache, gt ++ [false]⟩ : Global T),
        (⟨⟨some r, false, none, true⟩, 0, args, some gt.length⟩ : Ctrl A T),
        [AEvent.successEv r], ResumeRes.returned r) := by
    simp [executeResume, hlive, hk]
  simp [runFrom, hS, hR]

/-- A run of `m+1` consecutive failures on a cache-free configuration
whose remaining budget is exactly `m` ends in the error state with the
counter saturated at `retryCount` and exactly `m` retries scheduled. -/
theorem runFrom_allFail {A T : Type} (cfg : UseAsyncCfg) (v : JSVal)
    (hk : cfg.cacheKey = none) :
    ∀ (m : Nat) (g : Global T) (c : Ctrl A T) (args : List A) (now : Nat),
      cfg.retryCount = c.retryCnt + m →
      (runFrom cfg g c args now (List.replicate (m+1) (Except.error v))).2.1.state.loading
          = false ∧
      (runFrom cfg g c args now (List.replicate (m+1) (Except.error v))).2.1.state.error
          = some (jsToError v) ∧
      (runFrom cfg g c args now (List.replicate (m+1) (Except.error v))).2.1.state.success
          = false ∧
      (runFrom cfg g c args now (List.replicate (m+1) (Except.error v))).2.1.retryCnt
          = cfg.retryCount ∧
      countRetrySched
          (runFrom cfg g c args now (List.replicate (m+1) (Except.error v))).2.2 = m := by
  intro m
  induction m with
  | zero =>
    intro g c args now hm
    have hnlt : ¬ c.retryCnt < cfg.retryCount := by omega
    obtain ⟨gt, hE⟩ := runFrom_fail_last cfg g c args now v [] hk hnlt
    have hrep : List.replicate (0+1) (Except.error v : Except JSVal T)
        = [Except.error v] := rfl
    rw [hrep, hE]
    exact ⟨rfl, rfl, rfl, show c.retryCnt = cfg.retryCount by omega, rfl⟩
  | succ m ih =>
    intro g c args now hm
    have hlt : c.retryCnt < cfg.retryCount := by omega
    obtain ⟨gt, hE⟩ :=
      runFrom_fail_retry cfg g c args now v (List.replicate (m+1) (Except.error v)) hk hlt
    have hrep : List.replicate (m+1+1) (Except.error v : Except JSVal T)
        = Except.error v :: List.replicate (m+1) (Except.error v) := rfl
    rw [hrep, hE]
    obtain ⟨i1, i2, i3, i4, i5⟩ := ih (⟨g.cache, gt ++ [false]⟩ : Global T)
      (⟨⟨c.state.data, false, some (jsToError v), false⟩, c.retryCnt + 1,
        args, some gt.length⟩ : Ctrl A T)
      args (now + cfg.retryDelay)
      (show cfg.retryCount = c.retryCnt + 1 + m by omega)
    refine ⟨i1, i2, i3, i4, ?_⟩
    rw [countRetrySched_append]
    simp [countRetrySched, i5]
    omega

/-- A run of `m` consecutive failures followed by a success, on a
cache-free configuration with at least `m` of retry budget left, ends in
the success state with the returned value, the counter reset to zero,
and exactly `m` retries scheduled. -/
theorem runFrom_failThenOk {A T : Type} (cfg : UseAsyncCfg) (v : JSVal) (r : T)
    (hk : cfg.cacheKey = none) :
    ∀ (m : Nat) (g : Global T) (c : Ctrl A T) (args : List A) (now : Nat),
      c.retryCnt + m ≤ cfg.retryCount →
      (runFrom cfg g c args now
          (List.replicate m (Except.error v) ++ [Except.ok r])).2.1.state
        = ⟨some r, false, none, true⟩ ∧
      (runFrom cfg g c args now
          (List.replicate m (Except.error v) ++ [Except.ok r])).2.1.retryCnt = 0 ∧
      countRetrySched
          (runFrom cfg g c args now
            (List.replicate m (Except.error v) ++ [Except.ok r])).2.2 = m := by
  intro m
  induction m with
  | zero =>
    intro g c args now _
    obtain ⟨gt, hE⟩ := runFrom_ok cfg g c args now r [] hk
    have hrep : List.replicate 0 (Except.error v : Except JSVal T) ++ [Except.ok r]
        = [Except.ok r] := rfl
    rw [hrep, hE]
    exact ⟨rfl, rfl, rfl⟩
  | succ m ih =>
    intro g c args now hm
    have hlt : c.retryCnt < cfg.retryCount := by omega
    obtain ⟨gt, hE⟩ := runFrom_fail_retry cfg g c args now v
      (List.replicate m (Except.error v) ++ [Except.ok r]) hk hlt
    have hrep : List.replicate (m+1) (Except.error v : Except JSVal T)
          ++ [Except.ok r]
        = Except.error v :: (List.replicate m (Except.error v) ++ [Except.ok r]) := rfl
    rw [hrep, hE]
    obtain ⟨i1, i2, i3⟩ := ih (⟨g.cache, gt ++ [false]⟩ : Global T)
      (⟨⟨c.state.data, false, some (jsToError v), false⟩, c.retryCnt + 1,
        args, some gt.length⟩ : Ctrl A T)
      args (now + cfg.retryDelay)
      (show c.retryCnt + 1 + m ≤ cfg.retryCount by omega)
    refine ⟨i1, i2, ?_⟩
    rw [countRetrySched_append]
    simp [countRetrySched, i3]
    omega

/-- C3: on a fresh controller with `retryCount = N` and no cache key,
the retry decision is `attemptsSoFar < N`: an operation failing `N`
times and succeeding on attempt `N+1` ends in the success state with the
value of the final attempt and the consecutive-failure counter reset to
zero, with exactly `N` retries scheduled along the way; an operation
failing `N+1` times ends in the error state, not successful, with the
counter at `N` and exactly `N` (hence never more than `N`) retries
scheduled. -/
theorem useAsync_retry_bound {A T : Type} (N delay staleT : Nat) (v : JSVal)
    (r : T) (g : Global T) (args : List A) (now : Nat) :
    (runFrom ⟨N, delay, staleT, none⟩ g (initCtrl A T) args now
        (List.replicate N (Except.error v) ++ [Except.ok r])).2.1.state
      = ⟨some r, false, none, true⟩ ∧
    (runFrom ⟨N, delay, staleT, none⟩ g (initCtrl A T) args now
        (List.replicate N (Except.error v) ++ [Except.ok r])).2.1.retryCnt = 0 ∧
    countRetrySched
        (runFrom ⟨N, delay, staleT, none⟩ g (initCtrl A T) args now
          (List.replicate N (Except.error v) ++ [Except.ok r])).2.2 = N ∧
    (runFrom ⟨N, delay, staleT, none⟩ g (initCtrl A T) args now
        (List.replicate (N+1) (Except.error v))).2.1.state.error
      = some (jsToError v) ∧
    (runFrom ⟨N, delay, staleT, none⟩ g (initCtrl A T) args now
        (List.replicate (N+1) (Except.error v))).2.1.state.success = false ∧
    (runFrom ⟨N, delay, staleT, none⟩ g (initCtrl A T) args now
        (List.replicate (N+1) (Except.error v))).2.1.retryCnt = N ∧
    countRetrySched
        (runFrom ⟨N, delay, staleT, none⟩ g (initCtrl A T) args now
          (List.replicate (N+1) (Except.error v))).2.2 = N := by
  obtain ⟨a1, a2, a3⟩ := runFrom_failThenOk (⟨N, delay, staleT, none⟩ : UseAsyncCfg)
    v r rfl N g (initCtrl A T) args now (by simp [initCtrl])
  obtain ⟨b1, b2, b3, b4, b5⟩ := runFrom_allFail (⟨N, delay, staleT, none⟩ : UseAsyncCfg)
    v rfl N g (initCtrl A T) args now (by simp [initCtrl])
  exact ⟨a1, a2, a3, b2, b3, b4, b5⟩
